import Mathlib

/-!
Shallow embedding of the vintage-cookbook recipe application:
the server-side sanitizer and the two serverless API handlers
(`src/api/recipes.js` and the comments handler in `src/app.js`),
together with the client-side date formatting and search/filter logic
(`src/app.js`).  JavaScript values arriving in a JSON request body are
modelled by the inductive `JSValue`; strings are modelled through their
character lists, so `substring`, `trim` and regex character-class
removal become `List.take`, `dropWhile` and `List.filter`.
-/

namespace Fhcb

/-- A JSON-ish JavaScript value as it can appear in a parsed request body
or as a field handed to the sanitizer. -/
inductive JSValue where
  | vUndefined : JSValue
  | vNull : JSValue
  | vBool : Bool → JSValue
  | vNum : Int → JSValue
  | vStr : String → JSValue
deriving DecidableEq, Repr

/-- JavaScript truthiness of a `JSValue`: `undefined`, `null`, `false`,
`0` and `""` are falsy, everything else is truthy. -/
def truthy : JSValue → Bool
  | .vUndefined => false
  | .vNull => false
  | .vBool b => b
  | .vNum n => n != 0
  | .vStr s => s != ""

/-- JavaScript `String(x)` conversion for the modelled values. -/
def jsToString : JSValue → String
  | .vUndefined => "undefined"
  | .vNull => "null"
  | .vBool b => if b then "true" else "false"
  | .vNum n => toString n
  | .vStr s => s

/-- JavaScript `String.prototype.trim`: drop leading and trailing
whitespace (modelled with `Char.isWhitespace`). -/
def jsTrim (s : String) : String :=
  String.mk (((s.data.dropWhile Char.isWhitespace).reverse.dropWhile
    Char.isWhitespace).reverse)

/-- JavaScript `String.prototype.split` with a single-character
separator, on character lists (structurally recursive so that concrete
instances evaluate in the kernel). -/
def splitOnChar (sep : Char) : List Char → List (List Char)
  | [] => [[]]
  | c :: rest =>
    match splitOnChar sep rest with
    | [] => [[]]
    | h :: t => if c == sep then [] :: h :: t else (c :: h) :: t

/-- JavaScript `String.prototype.toLowerCase` (ASCII range). -/
def jsToLower (s : String) : String := String.mk (s.data.map Char.toLower)

/-- The regex replacement `.replace(/[<>]/g, '')` from `sanitizeString`:
remove every `<` and `>` character. -/
def stripAngles (s : String) : String :=
  String.mk (s.data.filter (fun c => !(c == '<' || c == '>')))

/-- JavaScript `s.substring(0, n)`: the first `n` characters of `s`. -/
def jsSubstring (n : Nat) (s : String) : String :=
  String.mk (s.data.take n)

/-- `sanitizeString` as written identically in `src/api/recipes.js` and
`src/app.js`, parametrised by the only difference between the two copies,
the truncation length (`10000` for recipes, `1000` for comments):
falsy input returns `''`; truthy non-string input returns `String(input)`;
a string is trimmed, has every `<` and `>` removed, and is truncated. -/
def sanitizeCore (maxLen : Nat) (input : JSValue) : String :=
  if truthy input then
    match input with
    | .vStr s => jsSubstring maxLen (stripAngles (jsTrim s))
    | v => jsToString v
  else ""

namespace RecipesApi

/-- `sanitizeString` from `src/api/recipes.js` (truncation at 10000). -/
def sanitizeString (input : JSValue) : String := sanitizeCore 10000 input

end RecipesApi

namespace CommentsApi

/-- `sanitizeString` from `src/app.js` (truncation at 1000). -/
def sanitizeString (input : JSValue) : String := sanitizeCore 1000 input

end CommentsApi

/-- The spec's description of the string case of the sanitizer: "trim
surrounding whitespace, remove every `<` and `>` character, then truncate
to a maximum length". -/
def specSanitize (maxLen : Nat) (s : String) : String :=
  jsSubstring maxLen (stripAngles (jsTrim s))

/-- JavaScript truthiness of an optional query-string parameter
(`undefined` or a string). -/
def optTruthy : Option String → Bool
  | none => false
  | some s => s != ""

/-- The value of the leading decimal digits of a character list, or
`none` when there is no leading digit. -/
def leadDigits (l : List Char) : Option Nat :=
  let ds := l.takeWhile Char.isDigit
  if ds.isEmpty then none
  else some (ds.foldl (fun acc c => acc * 10 + (c.toNat - 48)) 0)

/-- JavaScript `parseInt(s)` restricted to base 10: trim, optional sign,
then leading digits; `none` models `NaN`. -/
def parseIntJS (s : String) : Option Int :=
  match (jsTrim s).data with
  | '-' :: rest => (leadDigits rest).map (fun n => -(n : Int))
  | '+' :: rest => (leadDigits rest).map (fun n => (n : Int))
  | rest => (leadDigits rest).map (fun n => (n : Int))

namespace CommentsApi

/-- The `corsHeaders` constant of the comments handler in `src/app.js`. -/
def corsHeaders : List (String × String) :=
  [("Access-Control-Allow-Origin", "*"),
   ("Access-Control-Allow-Methods", "GET, POST, OPTIONS"),
   ("Access-Control-Allow-Headers", "Content-Type")]

/-- A persisted comment document in the `comments` collection. -/
structure StoredComment where
  recipeId : String
  username : String
  comment : String
  createdAt : Nat
deriving DecidableEq, Repr

/-- The slice of the Firestore state the comments handler touches:
the ids of the existing recipe documents and the comment documents. -/
structure CommentsDb where
  recipes : List String
  comments : List StoredComment
deriving DecidableEq, Repr

/-- The JSON body shapes the comments handler can respond with,
abstracted to their discriminating fields. -/
inductive CBody where
  | preflightOk
  | missingFields
  | recipeNotFound (recipeId : String)
  | invalidCommentLength
  | invalidUsernameLength
  | recipeIdRequired
  | commentsList (count : Nat) (recipeId : String) (comments : List StoredComment)
  | created (c : StoredComment)
  | methodNotAllowed (allowed : List String)
  | internalError
deriving DecidableEq, Repr

/-- An HTTP response of the comments handler: status, the headers set via
`res.setHeader`, and the JSON body. -/
structure CResponse where
  status : Nat
  headers : List (String × String)
  body : CBody
deriving DecidableEq, Repr

/-- The parsed JSON body of a comment-creation POST. -/
structure AddCommentReq where
  recipeId : JSValue
  username : JSValue
  comment : JSValue
deriving DecidableEq, Repr

/-- A request to the comments endpoint. -/
structure CommentsReq where
  method : String
  queryRecipeId : Option String
  body : AddCommentReq
deriving DecidableEq, Repr

/-- `orderBy('createdAt', 'desc')` on the comment documents. -/
def commentsByNewest (l : List StoredComment) : List StoredComment :=
  List.insertionSort (fun a b => b.createdAt ≤ a.createdAt) l

/-- `getComments` from `src/app.js`: 400 without a truthy `recipeId`
query parameter, otherwise the comments of that recipe, newest first. -/
def getComments (db : CommentsDb) (recipeId : Option String) : CResponse :=
  if !(optTruthy recipeId) then
    { status := 400, headers := corsHeaders, body := .recipeIdRequired }
  else
    let rid := recipeId.getD ""
    let cs := commentsByNewest (db.comments.filter (fun c => c.recipeId == rid))
    { status := 200, headers := corsHeaders, body := .commentsList cs.length rid cs }

/-- `addComment` from `src/app.js`: presence check on the three raw
fields, recipe-existence check, sanitization, comment-length check,
username-length check, insert.  `ts` is the server timestamp the store
assigns.  Passing a non-string `recipeId` to `doc()` makes the Firestore
SDK throw, which the handler's try/catch surfaces as a 500. -/
def addComment (ts : Nat) (db : CommentsDb) (b : AddCommentReq) :
    CResponse × CommentsDb :=
  if !(truthy b.recipeId) || !(truthy b.username) || !(truthy b.comment) then
    ({ status := 400, headers := corsHeaders, body := .missingFields }, db)
  else
    match b.recipeId with
    | .vStr rid =>
      if !(db.recipes.contains rid) then
        ({ status := 404, headers := corsHeaders, body := .recipeNotFound rid }, db)
      else
        let newComment : StoredComment :=
          { recipeId := sanitizeString b.recipeId,
            username := sanitizeString b.username,
            comment := sanitizeString b.comment,
            createdAt := ts }
        if newComment.comment.length < 1 || newComment.comment.length > 1000 then
          ({ status := 400, headers := corsHeaders, body := .invalidCommentLength }, db)
        else if newComment.username.length < 1 || newComment.username.length > 100 then
          ({ status := 400, headers := corsHeaders, body := .invalidUsernameLength }, db)
        else
          ({ status := 201, headers := corsHeaders, body := .created newComment },
           { db with comments := db.comments ++ [newComment] })
    | _ =>
      ({ status := 500, headers := corsHeaders, body := .internalError }, db)

/-- The exported comments handler (`module.exports` in `src/app.js`):
an OPTIONS preflight returns 200 before any header is set; otherwise the
CORS headers are set and the request is routed by method. -/
def handler (ts : Nat) (db : CommentsDb) (req : CommentsReq) :
    CResponse × CommentsDb :=
  if req.method == "OPTIONS" then
    ({ status := 200, headers := [], body := .preflightOk }, db)
  else if req.method == "GET" then
    (getComments db req.queryRecipeId, db)
  else if req.method == "POST" then
    addComment ts db req.body
  else
    ({ status := 405, headers := corsHeaders, body := .methodNotAllowed ["GET", "POST"] }, db)

end CommentsApi

namespace RecipesApi

/-- The `corsHeaders` constant of `src/api/recipes.js`. -/
def corsHeaders : List (String × String) :=
  [("Access-Control-Allow-Origin", "*"),
   ("Access-Control-Allow-Methods", "GET, POST, PUT, DELETE, OPTIONS"),
   ("Access-Control-Allow-Headers", "Content-Type")]

/-- A persisted recipe document in the `recipes` collection. -/
structure RecipeDoc where
  name : String
  category : String
  prepTime : String
  cookTime : String
  ingredients : String
  instructions : String
  notes : String
  createdAt : Nat
deriving DecidableEq, Repr

/-- The `recipes` collection: documents keyed by store-generated id,
together with the id-generation counter of the store. -/
structure RecipesDb where
  docs : List (String × RecipeDoc)
  nextId : Nat
deriving DecidableEq, Repr

/-- The JSON body shapes the recipes handler can respond with. -/
inductive RBody where
  | preflightOk
  | recipesList (count : Nat) (recipes : List (String × RecipeDoc))
  | singleRecipe (id : String) (r : RecipeDoc)
  | createdRecipe (id : String) (r : RecipeDoc)
  | deleted (recipeId : String)
  | missingFields
  | notFound (recipeId : String)
  | methodNotAllowed (allowed : List String)
  | internalError
deriving DecidableEq, Repr

/-- An HTTP response of the recipes handler. -/
structure RResponse where
  status : Nat
  headers : List (String × String)
  body : RBody
deriving DecidableEq, Repr

/-- The parsed JSON body of a recipe-creation POST. -/
structure CreateRecipeReq where
  name : JSValue
  category : JSValue
  prepTime : JSValue
  cookTime : JSValue
  ingredients : JSValue
  instructions : JSValue
  notes : JSValue
deriving DecidableEq, Repr

/-- A request to the recipes endpoint.  `queryRecent` is the
framework-parsed `recent` query parameter; the raw query string also
remains part of `url`. -/
structure RecipesReq where
  method : String
  url : String
  queryRecent : Option String
  body : CreateRecipeReq
deriving DecidableEq, Repr

/-- `orderBy('createdAt', 'desc')` on the recipe documents. -/
def byNewest (l : List (String × RecipeDoc)) : List (String × RecipeDoc) :=
  List.insertionSort (fun a b => b.2.createdAt ≤ a.2.createdAt) l

/-- `getAllRecipes` from `src/api/recipes.js`: all recipes, newest
first. -/
def getAllRecipes (db : RecipesDb) : RResponse :=
  let rs := byNewest db.docs
  { status := 200, headers := corsHeaders, body := .recipesList rs.length rs }

/-- `getRecentRecipes` from `src/api/recipes.js`: the first `lim`
recipes in newest-first order.  `none` models `parseInt` returning
`NaN`, and a negative limit is likewise rejected by the Firestore SDK;
both surface as the handler's catch-all 500. -/
def getRecentRecipes (db : RecipesDb) (lim : Option Int) : RResponse :=
  match lim with
  | none => { status := 500, headers := corsHeaders, body := .internalError }
  | some n =>
    if n < 0 then { status := 500, headers := corsHeaders, body := .internalError }
    else
      let rs := (byNewest db.docs).take n.toNat
      { status := 200, headers := corsHeaders, body := .recipesList rs.length rs }

/-- `getRecipeById` from `src/api/recipes.js`. -/
def getRecipeById (db : RecipesDb) (recipeId : String) : RResponse :=
  match db.docs.lookup recipeId with
  | none => { status := 404, headers := corsHeaders, body := .notFound recipeId }
  | some r => { status := 200, headers := corsHeaders, body := .singleRecipe recipeId r }

/-- JavaScript `a || b` on strings: `b` when `a` is the empty string. -/
def jsOr (a b : String) : String := if a = "" then b else a

/-- `createRecipe` from `src/api/recipes.js`: presence check on the raw
`name`/`ingredients`/`instructions`, then sanitization with defaulting,
then insert with a store-generated id and server timestamps. -/
def createRecipe (now : Nat) (db : RecipesDb) (b : CreateRecipeReq) :
    RResponse × RecipesDb :=
  if !(truthy b.name) || !(truthy b.ingredients) || !(truthy b.instructions) then
    ({ status := 400, headers := corsHeaders, body := .missingFields }, db)
  else
    let newRecipe : RecipeDoc :=
      { name := sanitizeString b.name,
        category := jsOr (sanitizeString b.category) "uncategorized",
        prepTime := jsOr (sanitizeString b.prepTime) "",
        cookTime := jsOr (sanitizeString b.cookTime) "",
        ingredients := sanitizeString b.ingredients,
        instructions := sanitizeString b.instructions,
        notes := jsOr (sanitizeString b.notes) "",
        createdAt := now }
    let newId := "g" ++ toString db.nextId
    ({ status := 201, headers := corsHeaders, body := .createdRecipe newId newRecipe },
     { docs := db.docs ++ [(newId, newRecipe)], nextId := db.nextId + 1 })

/-- `deleteRecipe` from `src/api/recipes.js`. -/
def deleteRecipe (db : RecipesDb) (recipeId : String) : RResponse × RecipesDb :=
  match db.docs.lookup recipeId with
  | none => ({ status := 404, headers := corsHeaders, body := .notFound recipeId }, db)
  | some _ =>
    ({ status := 200, headers := corsHeaders, body := .deleted recipeId },
     { db with docs := db.docs.filter (fun p => p.1 != recipeId) })

/-- The handler's id extraction: strip the query string, split on `/`,
take the last segment. -/
def lastSegment (url : String) : String :=
  let urlWithoutQuery := (splitOnChar '?' url.data).headD []
  let urlParts := (splitOnChar '/' urlWithoutQuery).map String.mk
  urlParts.getLastD ""

/-- The exported recipes handler (`module.exports` in
`src/api/recipes.js`): OPTIONS preflight first (before any header is
set), then CORS headers, then routing on method, `recent` query
parameter and the extracted path segment. -/
def handler (now : Nat) (db : RecipesDb) (req : RecipesReq) :
    RResponse × RecipesDb :=
  if req.method == "OPTIONS" then
    ({ status := 200, headers := [], body := .preflightOk }, db)
  else
    let lastPart := lastSegment req.url
    let recipeId : Option String :=
      if lastPart != "" && lastPart != "recipes" then some lastPart else none
    if req.method == "GET" && optTruthy req.queryRecent then
      (getRecentRecipes db (parseIntJS (req.queryRecent.getD "")), db)
    else if req.method == "GET" && recipeId.isSome then
      (getRecipeById db (recipeId.getD ""), db)
    else if req.method == "GET" then
      (getAllRecipes db, db)
    else if req.method == "POST" then
      createRecipe now db req.body
    else if req.method == "DELETE" && recipeId.isSome then
      deleteRecipe db (recipeId.getD "")
    else
      ({ status := 405, headers := corsHeaders, body := .methodNotAllowed ["GET", "POST", "DELETE"] }, db)

end RecipesApi

namespace Client

/-- Proleptic-Gregorian civil date from a count of days since the Unix
epoch (floor-division form of the standard civil-from-days algorithm),
as `(year, month, day)`.  Models the UTC reading a `Date` gives. -/
def civilFromDays (z0 : Int) : Int × Int × Int :=
  let z := z0 + 719468
  let era := z.fdiv 146097
  let doe := z - era * 146097
  let yoe := (doe - doe.fdiv 1460 + doe.fdiv 36524 - doe.fdiv 146096).fdiv 365
  let y := yoe + era * 400
  let doy := doe - (365 * yoe + yoe.fdiv 4 - yoe.fdiv 100)
  let mp := (5 * doy + 2).fdiv 153
  let d := doy - (153 * mp + 2).fdiv 5 + 1
  let m := mp + (if mp < 10 then 3 else -9)
  (y + (if m ≤ 2 then 1 else 0), m, d)

/-- English month names as `toLocaleDateString('en-US', .. month: 'long')`
renders them. -/
def monthName : Int → String
  | 1 => "January"
  | 2 => "February"
  | 3 => "March"
  | 4 => "April"
  | 5 => "May"
  | 6 => "June"
  | 7 => "July"
  | 8 => "August"
  | 9 => "September"
  | 10 => "October"
  | 11 => "November"
  | 12 => "December"
  | _ => ""

/-- The `Month D, YYYY` rendering of
`toLocaleDateString('en-US', { year: 'numeric', month: 'long', day: 'numeric' })`
for a valid date of `ms` milliseconds since the epoch. -/
def renderMDY (ms : Int) : String :=
  let dmy := civilFromDays (ms.fdiv 86400000)
  monthName dmy.2.1 ++ " " ++ toString dmy.2.2 ++ ", " ++ toString dmy.1

/-- A timestamp value as handed to `formatDate` / `formatRelativeTime`.
`strParsed ms` is a non-empty string the `Date` constructor parses to
`ms` milliseconds since the epoch; `strNoParse` is a non-empty string
the constructor cannot parse (an Invalid Date). -/
inductive TsValue where
  | undef
  | null
  | emptyStr
  | num (n : Int)
  | strParsed (ms : Int)
  | strNoParse
deriving DecidableEq, Repr

/-- JavaScript falsiness of a timestamp value (the `!timestamp` guard). -/
def tsFalsy : TsValue → Bool
  | .undef => true
  | .null => true
  | .emptyStr => true
  | .num n => n == 0
  | .strParsed _ => false
  | .strNoParse => false

/-- `new Date(timestamp)` as epoch milliseconds; `none` is an Invalid
Date, whose time value is `NaN`. -/
def dateMs : TsValue → Option Int
  | .undef => none
  | .null => some 0
  | .emptyStr => none
  | .num n => some n
  | .strParsed ms => some ms
  | .strNoParse => none

/-- `formatDate` from `src/app.js`.  `new Date` and `toLocaleDateString`
never throw on these inputs, so the catch branch is unreachable; an
Invalid Date renders as the fixed string `Invalid Date`. -/
def formatDate (t : TsValue) : String :=
  if tsFalsy t then "Recently added"
  else
    match dateMs t with
    | none => "Invalid Date"
    | some ms => renderMDY ms

/-- `formatRelativeTime` from `src/app.js`, with `now` the current epoch
milliseconds.  For an Invalid Date the difference is `NaN`, every
comparison is false, and control falls through to `formatDate`. -/
def formatRelativeTime (now : Int) (t : TsValue) : String :=
  if tsFalsy t then "just now"
  else
    match dateMs t with
    | none => formatDate t
    | some ms =>
      let diffInSeconds := (now - ms).fdiv 1000
      if diffInSeconds < 60 then "just now"
      else if diffInSeconds < 3600 then toString (diffInSeconds.fdiv 60) ++ " minutes ago"
      else if diffInSeconds < 86400 then toString (diffInSeconds.fdiv 3600) ++ " hours ago"
      else if diffInSeconds < 604800 then toString (diffInSeconds.fdiv 86400) ++ " days ago"
      else formatDate t

/-- A recipe as held in the client's in-memory `allRecipes` list.
`name` and `category` are always present in fetched recipes;
`ingredients` and `instructions` are guarded in the search code. -/
structure ClientRecipe where
  name : String
  category : String
  ingredients : Option String
  instructions : Option String
deriving DecidableEq, Repr

/-- Whether `pat` is a prefix of the second list. -/
def startsWithList : List Char → List Char → Bool
  | [], _ => true
  | _ :: _, [] => false
  | p :: ps, c :: cs => p == c && startsWithList ps cs

/-- Whether `pat` occurs as a contiguous sublist. -/
def hasSubList (pat : List Char) : List Char → Bool
  | [] => pat.isEmpty
  | c :: rest => startsWithList pat (c :: rest) || hasSubList pat rest

/-- JavaScript `s.includes(sub)`. -/
def jsIncludes (s sub : String) : Bool := hasSubList sub.data s.data

/-- The per-recipe search predicate of `performSearch`: case-insensitive
substring match against `name`, and against `ingredients` and
`instructions` when those fields are present and non-empty. -/
def matchesTerm (term : String) (r : ClientRecipe) : Bool :=
  jsIncludes (jsToLower r.name) term
  || (match r.ingredients with
      | some s => s != "" && jsIncludes (jsToLower s) term
      | none => false)
  || (match r.instructions with
      | some s => s != "" && jsIncludes (jsToLower s) term
      | none => false)

/-- `performSearch` from `src/app.js`, with the DOM inputs made explicit:
lowercase and trim the search box value, filter by exact category when
one is selected, then filter by the search term when it is non-empty. -/
def performSearch (allRecipes : List ClientRecipe)
    (searchValue selectedCategory : String) : List ClientRecipe :=
  let searchTerm := jsTrim (jsToLower searchValue)
  let fr1 :=
    if selectedCategory != "" then
      allRecipes.filter (fun r => r.category == selectedCategory)
    else allRecipes
  let fr2 :=
    if searchTerm != "" then fr1.filter (matchesTerm searchTerm)
    else fr1
  fr2

end Client

theorem string_ext {s t : String} (h : s.data = t.data) : s = t := by
  cases s; cases t; exact congrArg String.mk h

theorem sanitizeCore_falsy {v : JSValue} (h : truthy v = false) (maxLen : Nat) :
    sanitizeCore maxLen v = "" := by
  simp [sanitizeCore, h]

theorem sanitizeCore_truthy_nonstring {v : JSValue} (h : truthy v = true)
    (hs : ∀ s, v ≠ .vStr s) (maxLen : Nat) :
    sanitizeCore maxLen v = jsToString v := by
  cases v with
  | vStr s => exact absurd rfl (hs s)
  | vUndefined => simp [truthy] at h
  | vNull => simp [truthy] at h
  | vBool b => simp [sanitizeCore, h]
  | vNum n => simp [sanitizeCore, h]

theorem sanitizeCore_vStr (maxLen : Nat) (s : String) :
    sanitizeCore maxLen (.vStr s) = specSanitize maxLen s := by
  by_cases h : s = ""
  · subst h
    apply string_ext
    simp [sanitizeCore, truthy, specSanitize, jsSubstring, stripAngles, jsTrim]
  · simp [sanitizeCore, truthy, h, specSanitize]

/-- Every character of `specSanitize maxLen s` satisfies the
angle-bracket-removal predicate. -/
theorem specSanitize_no_angles {maxLen : Nat} {s : String} {c : Char}
    (h : c ∈ (specSanitize maxLen s).data) : ¬(c = '<' ∨ c = '>') := by
  have h2 : c ∈ ((jsTrim s).data.filter (fun c => !(c == '<' || c == '>'))) :=
    (List.take_sublist maxLen _).subset h
  have := (List.mem_filter.mp h2).2
  simpa using this

theorem specSanitize_length_le (maxLen : Nat) (s : String) :
    (specSanitize maxLen s).length ≤ maxLen := by
  have : (specSanitize maxLen s).length =
      (((jsTrim s).data.filter (fun c => !(c == '<' || c == '>'))).take maxLen).length := rfl
  rw [this, List.length_take]
  exact min_le_left _ _

theorem jsTrim_subset (s : String) : (jsTrim s).data ⊆ s.data := by
  intro c hc
  have h1 : c ∈ (s.data.dropWhile Char.isWhitespace).reverse.dropWhile Char.isWhitespace := by
    simpa [jsTrim] using hc
  have h2 := List.dropWhile_subset (l := (s.data.dropWhile Char.isWhitespace).reverse)
    Char.isWhitespace h1
  exact List.dropWhile_subset Char.isWhitespace (List.mem_reverse.mp h2)

theorem jsTrim_length_le (s : String) : (jsTrim s).length ≤ s.length := by
  have h1 : (jsTrim s).length =
      ((s.data.dropWhile Char.isWhitespace).reverse.dropWhile Char.isWhitespace).length := by
    simp [jsTrim, String.length]
  rw [h1]
  calc ((s.data.dropWhile Char.isWhitespace).reverse.dropWhile Char.isWhitespace).length
      ≤ (s.data.dropWhile Char.isWhitespace).reverse.length :=
        (List.dropWhile_sublist _).length_le
    _ = (s.data.dropWhile Char.isWhitespace).length := List.length_reverse _
    _ ≤ s.data.length := (List.dropWhile_sublist _).length_le

theorem jsTrim_empty : jsTrim "" = "" := rfl

/-- Applying the sanitizer to an already-sanitized string only trims it:
the second pass finds no angle brackets to remove and nothing to
truncate, but may strip whitespace exposed by the first pass. -/
theorem sanitizeCore_sanitizeCore (maxLen : Nat) (s : String) :
    sanitizeCore maxLen (.vStr (sanitizeCore maxLen (.vStr s))) =
      jsTrim (sanitizeCore maxLen (.vStr s)) := by
  set y := sanitizeCore maxLen (.vStr s) with hy
  by_cases h : y = ""
  · rw [h, jsTrim_empty]
    exact sanitizeCore_falsy (by simp [truthy]) maxLen
  · rw [sanitizeCore_vStr]
    have hylen : y.length ≤ maxLen := by
      rw [hy, sanitizeCore_vStr]; exact specSanitize_length_le maxLen s
    have hyang : ∀ c ∈ y.data, ¬(c = '<' ∨ c = '>') := by
      intro c hc
      rw [hy, sanitizeCore_vStr] at hc
      exact specSanitize_no_angles hc
    have hfilter : (jsTrim y).data.filter (fun c => !(c == '<' || c == '>')) =
        (jsTrim y).data := by
      apply List.filter_eq_self.mpr
      intro c hc
      have := hyang c (jsTrim_subset y hc)
      simpa using this
    have htake : ((jsTrim y).data).take maxLen = (jsTrim y).data := by
      apply List.take_of_length_le
      calc (jsTrim y).data.length = (jsTrim y).length := rfl
        _ ≤ y.length := jsTrim_length_le y
        _ ≤ maxLen := hylen
    apply string_ext
    show (((jsTrim y).data.filter (fun c => !(c == '<' || c == '>'))).take maxLen) =
      (jsTrim y).data
    rw [hfilter, htake]

/-- Claim C3, counterexample: the truthy non-string input `42` is not
mapped to the empty string by either sanitizer; both return its string
conversion `"42"`. -/
theorem sanitize_nonstring_cex :
    RecipesApi.sanitizeString (JSValue.vNum 42) = "42" ∧
    CommentsApi.sanitizeString (JSValue.vNum 42) = "42" ∧
    ("42" : String) ≠ "" := by
  refine ⟨by decide, by decide, by decide⟩

/-- Claim C3, amended: absent input (undefined or null) and every falsy
input sanitizes to the empty string; a truthy non-string input is
returned as its JavaScript string conversion `String(x)` instead. -/
theorem sanitize_falsy_amended (v : JSValue) :
    (truthy v = false →
      RecipesApi.sanitizeString v = "" ∧ CommentsApi.sanitizeString v = "") ∧
    (truthy v = true → (∀ s, v ≠ JSValue.vStr s) →
      RecipesApi.sanitizeString v = jsToString v ∧
      CommentsApi.sanitizeString v = jsToString v) := by
  constructor
  · intro h
    exact ⟨sanitizeCore_falsy h 10000, sanitizeCore_falsy h 1000⟩
  · intro h hs
    exact ⟨sanitizeCore_truthy_nonstring h hs 10000,
      sanitizeCore_truthy_nonstring h hs 1000⟩

/-- Claim C3 witness: both sanitizers map `null` to the empty string. -/
theorem sanitize_falsy_amended_witness :
    RecipesApi.sanitizeString JSValue.vNull = "" ∧
    CommentsApi.sanitizeString JSValue.vNull = "" :=
  (sanitize_falsy_amended JSValue.vNull).1 rfl

/-- Claim C4: for every string, each sanitizer's output contains no `<`
and no `>`, its length is at most the configured maximum (10000 on the
recipe side, 1000 on the comment side), and it equals the input trimmed,
with every angle bracket removed, then truncated. -/
theorem sanitize_string_bounds (s : String) :
    ('<' ∉ (RecipesApi.sanitizeString (JSValue.vStr s)).data ∧
     '>' ∉ (RecipesApi.sanitizeString (JSValue.vStr s)).data ∧
     (RecipesApi.sanitizeString (JSValue.vStr s)).length ≤ 10000 ∧
     RecipesApi.sanitizeString (JSValue.vStr s) = specSanitize 10000 s) ∧
    ('<' ∉ (CommentsApi.sanitizeString (JSValue.vStr s)).data ∧
     '>' ∉ (CommentsApi.sanitizeString (JSValue.vStr s)).data ∧
     (CommentsApi.sanitizeString (JSValue.vStr s)).length ≤ 1000 ∧
     CommentsApi.sanitizeString (JSValue.vStr s) = specSanitize 1000 s) := by
  have key : ∀ maxLen : Nat,
      '<' ∉ (sanitizeCore maxLen (JSValue.vStr s)).data ∧
      '>' ∉ (sanitizeCore maxLen (JSValue.vStr s)).data ∧
      (sanitizeCore maxLen (JSValue.vStr s)).length ≤ maxLen ∧
      sanitizeCore maxLen (JSValue.vStr s) = specSanitize maxLen s := by
    intro maxLen
    refine ⟨?_, ?_, ?_, sanitizeCore_vStr maxLen s⟩
    · intro h
      rw [sanitizeCore_vStr] at h
      exact specSanitize_no_angles h (Or.inl rfl)
    · intro h
      rw [sanitizeCore_vStr] at h
      exact specSanitize_no_angles h (Or.inr rfl)
    · rw [sanitizeCore_vStr]
      exact specSanitize_length_le maxLen s
  exact ⟨key 10000, key 1000⟩

/-- Claim C5, counterexample: sanitization is not idempotent.  On
`"< a"` the first pass removes the `<` and leaves `" a"`, whose leading
space a second pass trims away. -/
theorem sanitize_idempotent_cex :
    CommentsApi.sanitizeString (JSValue.vStr "< a") = " a" ∧
    CommentsApi.sanitizeString
      (JSValue.vStr (CommentsApi.sanitizeString (JSValue.vStr "< a"))) = "a" ∧
    CommentsApi.sanitizeString
      (JSValue.vStr (CommentsApi.sanitizeString (JSValue.vStr "< a"))) ≠
      CommentsApi.sanitizeString (JSValue.vStr "< a") := by
  refine ⟨by decide, by decide, by decide⟩

/-- Claim C5, amended: re-sanitizing a sanitized string only trims it:
`sanitize (sanitize s) = trim (sanitize s)` for both sanitizers, so
idempotence holds exactly on inputs whose sanitized form carries no
leading or trailing whitespace. -/
theorem sanitize_sanitize_eq_trim (s : String) :
    RecipesApi.sanitizeString
        (JSValue.vStr (RecipesApi.sanitizeString (JSValue.vStr s))) =
      jsTrim (RecipesApi.sanitizeString (JSValue.vStr s)) ∧
    CommentsApi.sanitizeString
        (JSValue.vStr (CommentsApi.sanitizeString (JSValue.vStr s))) =
      jsTrim (CommentsApi.sanitizeString (JSValue.vStr s)) :=
  ⟨sanitizeCore_sanitizeCore 10000 s, sanitizeCore_sanitizeCore 1000 s⟩

theorem handler_post_eq_addComment (ts : Nat) (db : CommentsApi.CommentsDb)
    (req : CommentsApi.CommentsReq) (hpost : req.method = "POST") :
    CommentsApi.handler ts db req = CommentsApi.addComment ts db req.body := by
  simp [CommentsApi.handler, hpost]

/-- Claim C1: a POST to the comments endpoint whose `recipeId` refers to
an existing recipe returns 400 and persists nothing whenever the
sanitized username length is outside `[1, 100]` or the sanitized comment
length is outside `[1, 1000]`. -/
theorem comment_length_validation_rejects (ts : Nat)
    (db : CommentsApi.CommentsDb) (req : CommentsApi.CommentsReq)
    (hpost : req.method = "POST") (rid : String)
    (hrid : req.body.recipeId = JSValue.vStr rid) (hex : rid ∈ db.recipes)
    (hbad : (CommentsApi.sanitizeString req.body.username).length < 1 ∨
            (CommentsApi.sanitizeString req.body.username).length > 100 ∨
            (CommentsApi.sanitizeString req.body.comment).length < 1 ∨
            (CommentsApi.sanitizeString req.body.comment).length > 1000) :
    (CommentsApi.handler ts db req).1.status = 400 ∧
    (CommentsApi.handler ts db req).2.comments = db.comments := by
  rw [handler_post_eq_addComment ts db req hpost]
  have hc : db.recipes.contains rid = true := List.elem_iff.mpr hex
  unfold CommentsApi.addComment
  rw [hrid]
  split
  · exact ⟨rfl, rfl⟩
  · simp only [hc, Bool.not_true, Bool.false_eq_true, if_false]
    split
    · exact ⟨rfl, rfl⟩
    · split
      · exact ⟨rfl, rfl⟩
      · rename_i hclen hulen
        exfalso
        simp only [Bool.or_eq_true, decide_eq_true_eq, not_or, not_lt] at hclen hulen
        omega

/-- Claim C1 witness: against the existing recipe `r1`, a whitespace-only
username sanitizes to length 0 and the POST is rejected with 400,
persisting nothing. -/
theorem comment_length_validation_rejects_witness :
    (CommentsApi.handler 0 ⟨["r1"], []⟩
      ⟨"POST", none, ⟨JSValue.vStr "r1", JSValue.vStr "   ", JSValue.vStr "hello"⟩⟩).1.status = 400 ∧
    (CommentsApi.handler 0 ⟨["r1"], []⟩
      ⟨"POST", none, ⟨JSValue.vStr "r1", JSValue.vStr "   ", JSValue.vStr "hello"⟩⟩).2.comments = [] :=
  comment_length_validation_rejects 0 ⟨["r1"], []⟩
    ⟨"POST", none, ⟨JSValue.vStr "r1", JSValue.vStr "   ", JSValue.vStr "hello"⟩⟩
    rfl "r1" rfl (by decide) (Or.inl (by decide))

/-- Claim C6, counterexample: a POST whose `recipeId` does not refer to
an existing recipe but whose `username` is the empty string is answered
by the presence check with 400 `Missing required fields`, not with the
claimed 404 `Recipe not found`. -/
theorem existence_before_length_cex :
    (CommentsApi.handler 0 ⟨["r1"], []⟩
      ⟨"POST", none, ⟨JSValue.vStr "nope", JSValue.vStr "", JSValue.vStr "hi"⟩⟩).1.status = 400 ∧
    (CommentsApi.handler 0 ⟨["r1"], []⟩
      ⟨"POST", none, ⟨JSValue.vStr "nope", JSValue.vStr "", JSValue.vStr "hi"⟩⟩).1.body =
      CommentsApi.CBody.missingFields := by
  refine ⟨by decide, by decide⟩

/-- Claim C6, amended: once the three raw fields pass the presence
check, the existence check precedes length validation: a truthy POST
whose string `recipeId` names no existing recipe gets 404 `Recipe not
found` regardless of length validity, and a length-validation 400 can
only arise when the referenced recipe exists. -/
theorem existence_check_order_amended (ts : Nat)
    (db : CommentsApi.CommentsDb) (req : CommentsApi.CommentsReq) :
    (req.method = "POST" → truthy req.body.recipeId = true →
      truthy req.body.username = true → truthy req.body.comment = true →
      ∀ rid, req.body.recipeId = JSValue.vStr rid → rid ∉ db.recipes →
      (CommentsApi.handler ts db req).1.status = 404 ∧
      (CommentsApi.handler ts db req).1.body = CommentsApi.CBody.recipeNotFound rid ∧
      (CommentsApi.handler ts db req).2.comments = db.comments) ∧
    (req.method = "POST" →
      ((CommentsApi.handler ts db req).1.body = CommentsApi.CBody.invalidCommentLength ∨
       (CommentsApi.handler ts db req).1.body = CommentsApi.CBody.invalidUsernameLength) →
      ∃ rid, req.body.recipeId = JSValue.vStr rid ∧ rid ∈ db.recipes) := by
  constructor
  · intro hpost h1 h2 h3 rid hrid hnotmem
    rw [handler_post_eq_addComment ts db req hpost]
    have hc : db.recipes.contains rid = false := by
      apply eq_false_of_ne_true
      intro h
      exact hnotmem (List.elem_iff.mp h)
    rw [hrid] at h1
    unfold CommentsApi.addComment
    rw [hrid]
    simp [h1, h2, h3, hc, hnotmem]
  · intro hpost hbody
    rw [handler_post_eq_addComment ts db req hpost] at hbody
    unfold CommentsApi.addComment at hbody
    by_cases hp : (!truthy req.body.recipeId || !truthy req.body.username ||
        !truthy req.body.comment) = true
    · rw [if_pos hp] at hbody
      rcases hbody with h | h <;> simp at h
    · rw [if_neg hp] at hbody
      cases hv : req.body.recipeId with
      | vStr rid =>
        rw [hv] at hbody
        simp only [] at hbody
        by_cases hc : db.recipes.contains rid = true
        · exact ⟨rid, rfl, List.elem_iff.mp hc⟩
        · have hc' := eq_false_of_ne_true hc
          simp only [hc', Bool.not_false] at hbody
          rcases hbody with h | h <;> simp at h
      | vUndefined => rw [hv] at hbody; rcases hbody with h | h <;> simp at h
      | vNull => rw [hv] at hbody; rcases hbody with h | h <;> simp at h
      | vBool b => rw [hv] at hbody; rcases hbody with h | h <;> simp at h
      | vNum n => rw [hv] at hbody; rcases hbody with h | h <;> simp at h

/-- Claim C6 witness: with all three fields present and truthy, a
nonexistent `recipeId` is reported as 404 `Recipe not found` even though
the username is 200 characters long (an invalid length). -/
theorem existence_check_order_amended_witness :
    (CommentsApi.handler 0 ⟨["r1"], []⟩
      ⟨"POST", none,
        ⟨JSValue.vStr "nope", JSValue.vStr (String.mk (List.replicate 200 'x')), JSValue.vStr "hi"⟩⟩).1.status = 404 ∧
    (CommentsApi.handler 0 ⟨["r1"], []⟩
      ⟨"POST", none,
        ⟨JSValue.vStr "nope", JSValue.vStr (String.mk (List.replicate 200 'x')), JSValue.vStr "hi"⟩⟩).1.body =
      CommentsApi.CBody.recipeNotFound "nope" :=
  let h := (existence_check_order_amended 0 ⟨["r1"], []⟩
    ⟨"POST", none,
      ⟨JSValue.vStr "nope", JSValue.vStr (String.mk (List.replicate 200 'x')), JSValue.vStr "hi"⟩⟩).1
    rfl (by decide) (by decide) (by decide) "nope" rfl (by decide)
  ⟨h.1, h.2.1⟩

/-- Claim C2, counterexample: a whitespace-only `name` is truthy, so it
passes the presence check, but it sanitizes to the empty string: the
POST is accepted with 201 and the persisted recipe document has an empty
`name`, violating the claimed invariant. -/
theorem recipe_nonempty_invariant_cex :
    (RecipesApi.handler 0 ⟨[], 0⟩
      ⟨"POST", "/api/recipes", none,
        ⟨JSValue.vStr " ", JSValue.vUndefined, JSValue.vUndefined, JSValue.vUndefined,
         JSValue.vStr "flour", JSValue.vStr "mix", JSValue.vUndefined⟩⟩).1.status = 201 ∧
    ((RecipesApi.handler 0 ⟨[], 0⟩
      ⟨"POST", "/api/recipes", none,
        ⟨JSValue.vStr " ", JSValue.vUndefined, JSValue.vUndefined, JSValue.vUndefined,
         JSValue.vStr "flour", JSValue.vStr "mix", JSValue.vUndefined⟩⟩).2.docs.map
      (fun p => p.2.name)) = [""] := by
  refine ⟨by decide, by decide⟩

theorem handler_post_eq_createRecipe (now : Nat) (db : RecipesApi.RecipesDb)
    (req : RecipesApi.RecipesReq) (hpost : req.method = "POST") :
    RecipesApi.handler now db req = RecipesApi.createRecipe now db req.body := by
  simp [RecipesApi.handler, hpost]

/-- Claim C2, amended: a POST in which any of `name`, `ingredients` or
`instructions` is empty, absent or otherwise falsy returns 400 and
persists nothing; every accepted POST stores the sanitized field values
— which may be empty when a truthy raw field (e.g. whitespace-only)
sanitizes to the empty string, so non-emptiness of the stored fields is
only guaranteed up to sanitization. -/
theorem createRecipe_validation_amended (now : Nat) (db : RecipesApi.RecipesDb)
    (req : RecipesApi.RecipesReq) (hpost : req.method = "POST") :
    ((truthy req.body.name = false ∨ truthy req.body.ingredients = false ∨
      truthy req.body.instructions = false) →
      (RecipesApi.handler now db req).1.status = 400 ∧
      (RecipesApi.handler now db req).2 = db) ∧
    (truthy req.body.name = true → truthy req.body.ingredients = true →
      truthy req.body.instructions = true →
      (RecipesApi.handler now db req).1.status = 201 ∧
      (RecipesApi.handler now db req).2.docs = db.docs ++
        [("g" ++ toString db.nextId,
          { name := RecipesApi.sanitizeString req.body.name,
            category := RecipesApi.jsOr (RecipesApi.sanitizeString req.body.category) "uncategorized",
            prepTime := RecipesApi.jsOr (RecipesApi.sanitizeString req.body.prepTime) "",
            cookTime := RecipesApi.jsOr (RecipesApi.sanitizeString req.body.cookTime) "",
            ingredients := RecipesApi.sanitizeString req.body.ingredients,
            instructions := RecipesApi.sanitizeString req.body.instructions,
            notes := RecipesApi.jsOr (RecipesApi.sanitizeString req.body.notes) "",
            createdAt := now })]) := by
  rw [handler_post_eq_createRecipe now db req hpost]
  constructor
  · intro hfalsy
    unfold RecipesApi.createRecipe
    have hcond : (!truthy req.body.name || !truthy req.body.ingredients ||
        !truthy req.body.instructions) = true := by
      rcases hfalsy with h | h | h <;> simp [h]
    rw [if_pos hcond]
    exact ⟨rfl, rfl⟩
  · intro h1 h2 h3
    unfold RecipesApi.createRecipe
    have hcond : (!truthy req.body.name || !truthy req.body.ingredients ||
        !truthy req.body.instructions) = false := by
      simp [h1, h2, h3]
    rw [hcond]
    exact ⟨rfl, rfl⟩

/-- Claim C2 witness: an all-valid POST is accepted with 201 and the
stored document carries the sanitized fields, with `category` defaulted
to `uncategorized`. -/
theorem createRecipe_validation_amended_witness :
    (RecipesApi.handler 0 ⟨[], 0⟩
      ⟨"POST", "/api/recipes", none,
        ⟨JSValue.vStr "Pie", JSValue.vUndefined, JSValue.vUndefined, JSValue.vUndefined,
         JSValue.vStr "flour", JSValue.vStr "mix", JSValue.vUndefined⟩⟩).1.status = 201 ∧
    (RecipesApi.handler 0 ⟨[], 0⟩
      ⟨"POST", "/api/recipes", none,
        ⟨JSValue.vStr "Pie", JSValue.vUndefined, JSValue.vUndefined, JSValue.vUndefined,
         JSValue.vStr "flour", JSValue.vStr "mix", JSValue.vUndefined⟩⟩).2.docs =
      [("g0", ⟨"Pie", "uncategorized", "", "", "flour", "mix", "", 0⟩)] := by
  have h := (createRecipe_validation_amended 0 ⟨[], 0⟩
    ⟨"POST", "/api/recipes", none,
      ⟨JSValue.vStr "Pie", JSValue.vUndefined, JSValue.vUndefined, JSValue.vUndefined,
       JSValue.vStr "flour", JSValue.vStr "mix", JSValue.vUndefined⟩⟩ rfl).2
    (by decide) (by decide) (by decide)
  refine ⟨h.1, ?_⟩
  rw [h.2]
  decide

/-- Claim C7, counterexample: the OPTIONS preflight of both handlers
returns 200 before `res.setHeader` runs, so the preflight response
carries no headers at all — in particular none of the CORS headers. -/
theorem cors_options_cex :
    (RecipesApi.handler 0 ⟨[], 0⟩
      ⟨"OPTIONS", "/api/recipes", none,
        ⟨JSValue.vUndefined, JSValue.vUndefined, JSValue.vUndefined, JSValue.vUndefined,
         JSValue.vUndefined, JSValue.vUndefined, JSValue.vUndefined⟩⟩).1.status = 200 ∧
    (RecipesApi.handler 0 ⟨[], 0⟩
      ⟨"OPTIONS", "/api/recipes", none,
        ⟨JSValue.vUndefined, JSValue.vUndefined, JSValue.vUndefined, JSValue.vUndefined,
         JSValue.vUndefined, JSValue.vUndefined, JSValue.vUndefined⟩⟩).1.headers = [] ∧
    (CommentsApi.handler 0 ⟨[], []⟩
      ⟨"OPTIONS", none, ⟨JSValue.vUndefined, JSValue.vUndefined, JSValue.vUndefined⟩⟩).1.status = 200 ∧
    (CommentsApi.handler 0 ⟨[], []⟩
      ⟨"OPTIONS", none, ⟨JSValue.vUndefined, JSValue.vUndefined, JSValue.vUndefined⟩⟩).1.headers = [] := by
  refine ⟨by decide, by decide, by decide, by decide⟩

theorem addComment_headers (ts : Nat) (db : CommentsApi.CommentsDb)
    (b : CommentsApi.AddCommentReq) :
    (CommentsApi.addComment ts db b).1.headers = CommentsApi.corsHeaders := by
  unfold CommentsApi.addComment
  split
  · rfl
  · split
    · split
      · rfl
      · dsimp only
        split
        · rfl
        · split <;> rfl
    · rfl

theorem getComments_headers (db : CommentsApi.CommentsDb) (rid : Option String) :
    (CommentsApi.getComments db rid).headers = CommentsApi.corsHeaders := by
  unfold CommentsApi.getComments
  split <;> rfl

theorem createRecipe_headers (now : Nat) (db : RecipesApi.RecipesDb)
    (b : RecipesApi.CreateRecipeReq) :
    (RecipesApi.createRecipe now db b).1.headers = RecipesApi.corsHeaders := by
  unfold RecipesApi.createRecipe
  split <;> rfl

theorem getRecipeById_headers (db : RecipesApi.RecipesDb) (rid : String) :
    (RecipesApi.getRecipeById db rid).headers = RecipesApi.corsHeaders := by
  unfold RecipesApi.getRecipeById
  rcases hl : db.docs.lookup rid with _ | r <;> simp [hl]

theorem deleteRecipe_headers (db : RecipesApi.RecipesDb) (rid : String) :
    (RecipesApi.deleteRecipe db rid).1.headers = RecipesApi.corsHeaders := by
  unfold RecipesApi.deleteRecipe
  rcases hl : db.docs.lookup rid with _ | r <;> simp [hl]

theorem getRecentRecipes_headers (db : RecipesApi.RecipesDb) (lim : Option Int) :
    (RecipesApi.getRecentRecipes db lim).headers = RecipesApi.corsHeaders := by
  unfold RecipesApi.getRecentRecipes
  rcases lim with _ | n
  · rfl
  · dsimp only
    split <;> rfl

theorem recipes_handler_headers (now : Nat) (db : RecipesApi.RecipesDb)
    (req : RecipesApi.RecipesReq) (hm : req.method ≠ "OPTIONS") :
    (RecipesApi.handler now db req).1.headers = RecipesApi.corsHeaders := by
  unfold RecipesApi.handler
  have hm' : (req.method == "OPTIONS") = false := by
    simpa using hm
  rw [hm']
  simp only [Bool.false_eq_true, if_false]
  repeat' split
  all_goals first
    | rfl
    | exact getRecentRecipes_headers db _
    | exact getRecipeById_headers db _
    | exact createRecipe_headers now db req.body
    | exact deleteRecipe_headers db _

theorem comments_handler_headers (ts : Nat) (db : CommentsApi.CommentsDb)
    (req : CommentsApi.CommentsReq) (hm : req.method ≠ "OPTIONS") :
    (CommentsApi.handler ts db req).1.headers = CommentsApi.corsHeaders := by
  unfold CommentsApi.handler
  have hm' : (req.method == "OPTIONS") = false := by
    simpa using hm
  rw [hm']
  simp only [Bool.false_eq_true, if_false]
  split
  · exact getComments_headers db req.queryRecipeId
  · split
    · exact addComment_headers ts db req.body
    · rfl

/-- Claim C7, amended: every non-OPTIONS response of either handler
carries that handler's permissive CORS headers (any origin, the
handler's methods list, `Content-Type`); the OPTIONS preflight instead
short-circuits with `200 ok` before the headers are set and carries no
headers. -/
theorem cors_headers_amended (now ts : Nat)
    (db : RecipesApi.RecipesDb) (req : RecipesApi.RecipesReq)
    (dbc : CommentsApi.CommentsDb) (reqc : CommentsApi.CommentsReq) :
    (req.method ≠ "OPTIONS" →
      (RecipesApi.handler now db req).1.headers = RecipesApi.corsHeaders) ∧
    (req.method = "OPTIONS" →
      (RecipesApi.handler now db req).1 = ⟨200, [], RecipesApi.RBody.preflightOk⟩) ∧
    (reqc.method ≠ "OPTIONS" →
      (CommentsApi.handler ts dbc reqc).1.headers = CommentsApi.corsHeaders) ∧
    (reqc.method = "OPTIONS" →
      (CommentsApi.handler ts dbc reqc).1 = ⟨200, [], CommentsApi.CBody.preflightOk⟩) := by
  refine ⟨recipes_handler_headers now db req, ?_,
    comments_handler_headers ts dbc reqc, ?_⟩
  · intro hm
    simp [RecipesApi.handler, hm]
  · intro hm
    simp [CommentsApi.handler, hm]

/-- Claim C7 witness: a GET to the recipes endpoint carries the CORS
headers, and an OPTIONS preflight to the comments endpoint is the bare
200 response. -/
theorem cors_headers_amended_witness :
    (RecipesApi.handler 0 ⟨[], 0⟩
      ⟨"GET", "/api/recipes", none,
        ⟨JSValue.vUndefined, JSValue.vUndefined, JSValue.vUndefined, JSValue.vUndefined,
         JSValue.vUndefined, JSValue.vUndefined, JSValue.vUndefined⟩⟩).1.headers =
      RecipesApi.corsHeaders ∧
    (CommentsApi.handler 0 ⟨[], []⟩
      ⟨"OPTIONS", none, ⟨JSValue.vUndefined, JSValue.vUndefined, JSValue.vUndefined⟩⟩).1 =
      ⟨200, [], CommentsApi.CBody.preflightOk⟩ := by
  have h := cors_headers_amended 0 0 ⟨[], 0⟩
    ⟨"GET", "/api/recipes", none,
      ⟨JSValue.vUndefined, JSValue.vUndefined, JSValue.vUndefined, JSValue.vUndefined,
       JSValue.vUndefined, JSValue.vUndefined, JSValue.vUndefined⟩⟩ ⟨[], []⟩
    ⟨"OPTIONS", none, ⟨JSValue.vUndefined, JSValue.vUndefined, JSValue.vUndefined⟩⟩
  exact ⟨h.1 (by decide), h.2.2.2 rfl⟩

/-- Claim C8, counterexample: the numeric timestamp `0` (the epoch,
decades older than 7 days) is falsy, so `formatRelativeTime` answers
`just now` instead of the claimed absolute `Month D, YYYY` form
(which would be `January 1, 1970`). -/
theorem formatRelativeTime_zero_cex :
    Client.formatRelativeTime 1760227200000 (Client.TsValue.num 0) = "just now" ∧
    (604800 : Int) ≤ ((1760227200000 : Int) - 0).fdiv 1000 ∧
    Client.renderMDY 0 = "January 1, 1970" ∧
    ("just now" : String) ≠ "January 1, 1970" := by
  refine ⟨by decide, by decide, by decide, by decide⟩

/-- Claim C8, amended: `formatRelativeTime` returns `just now` for every
falsy timestamp (absent, empty string, or the number 0) and for
timestamps less than 60 seconds old; `N minutes/hours/days ago` for
truthy parseable timestamps under 7 days old; the absolute
`Month D, YYYY` form beyond 7 days; and for a truthy unparseable
timestamp the fixed string `Invalid Date` rather than failing. -/
theorem formatRelativeTime_cases (now : Int) (t : Client.TsValue) :
    (Client.tsFalsy t = true → Client.formatRelativeTime now t = "just now") ∧
    (Client.tsFalsy t = false → Client.dateMs t = none →
      Client.formatRelativeTime now t = "Invalid Date") ∧
    (∀ ms, Client.tsFalsy t = false → Client.dateMs t = some ms →
      ((now - ms).fdiv 1000 < 60 → Client.formatRelativeTime now t = "just now") ∧
      (60 ≤ (now - ms).fdiv 1000 → (now - ms).fdiv 1000 < 3600 →
        Client.formatRelativeTime now t =
          toString (((now - ms).fdiv 1000).fdiv 60) ++ " minutes ago") ∧
      (3600 ≤ (now - ms).fdiv 1000 → (now - ms).fdiv 1000 < 86400 →
        Client.formatRelativeTime now t =
          toString (((now - ms).fdiv 1000).fdiv 3600) ++ " hours ago") ∧
      (86400 ≤ (now - ms).fdiv 1000 → (now - ms).fdiv 1000 < 604800 →
        Client.formatRelativeTime now t =
          toString (((now - ms).fdiv 1000).fdiv 86400) ++ " days ago") ∧
      (604800 ≤ (now - ms).fdiv 1000 →
        Client.formatRelativeTime now t = Client.renderMDY ms)) := by
  refine ⟨?_, ?_, ?_⟩
  · intro h
    simp [Client.formatRelativeTime, h]
  · intro h hn
    simp [Client.formatRelativeTime, Client.formatDate, h, hn]
  · intro ms h hm
    refine ⟨?_, ?_, ?_, ?_, ?_⟩
    · intro h60
      simp [Client.formatRelativeTime, h, hm, h60]
    · intro ha hb
      have h1 : ¬(now - ms).fdiv 1000 < 60 := by omega
      simp [Client.formatRelativeTime, h, hm, h1, hb]
    · intro ha hb
      have h1 : ¬(now - ms).fdiv 1000 < 60 := by omega
      have h2 : ¬(now - ms).fdiv 1000 < 3600 := by omega
      simp [Client.formatRelativeTime, h, hm, h1, h2, hb]
    · intro ha hb
      have h1 : ¬(now - ms).fdiv 1000 < 60 := by omega
      have h2 : ¬(now - ms).fdiv 1000 < 3600 := by omega
      have h3 : ¬(now - ms).fdiv 1000 < 86400 := by omega
      simp [Client.formatRelativeTime, h, hm, h1, h2, h3, hb]
    · intro ha
      have h1 : ¬(now - ms).fdiv 1000 < 60 := by omega
      have h2 : ¬(now - ms).fdiv 1000 < 3600 := by omega
      have h3 : ¬(now - ms).fdiv 1000 < 86400 := by omega
      have h4 : ¬(now - ms).fdiv 1000 < 604800 := by omega
      simp [Client.formatRelativeTime, Client.formatDate, h, hm, h1, h2, h3, h4]

/-- Claim C8 witness: a parseable timestamp two hours old renders as
`2 hours ago`. -/
theorem formatRelativeTime_cases_witness :
    Client.formatRelativeTime 1760227200000 (Client.TsValue.strParsed 1760220000000) =
      "2 hours ago" := by
  have h := ((formatRelativeTime_cases 1760227200000
    (Client.TsValue.strParsed 1760220000000)).2.2 1760220000000 rfl rfl).2.2.1
    (by decide) (by decide)
  rw [h]
  decide

/-- Claim C9: the search result consists of exactly the recipes matching
the selected category (when one is selected) and containing the
lowercased trimmed search term in name, ingredients or instructions
(when the term is non-empty); with no term and no category the full
list is returned. -/
theorem performSearch_filter_spec (l : List Client.ClientRecipe)
    (searchValue selectedCategory : String) :
    Client.performSearch l searchValue selectedCategory =
      l.filter (fun r =>
        (selectedCategory == "" || r.category == selectedCategory) &&
        (jsTrim (jsToLower searchValue) == "" ||
          Client.matchesTerm (jsTrim (jsToLower searchValue)) r)) ∧
    (jsTrim (jsToLower searchValue) = "" → selectedCategory = "" →
      Client.performSearch l searchValue selectedCategory = l) := by
  constructor
  · by_cases hc : selectedCategory = ""
    all_goals by_cases ht : jsTrim (jsToLower searchValue) = ""
    · simp [Client.performSearch, hc, ht]
    · have ht' : (jsTrim (jsToLower searchValue) == "") = false := by
        simpa using ht
      simp [Client.performSearch, hc, ht, ht']
    · have hc' : (selectedCategory == "") = false := by
        simpa using hc
      simp [Client.performSearch, hc, ht, hc']
    · have hc' : (selectedCategory == "") = false := by
        simpa using hc
      have ht' : (jsTrim (jsToLower searchValue) == "") = false := by
        simpa using ht
      simp only [Client.performSearch, hc, ht, bne_iff_ne, ne_eq,
        not_false_eq_true, if_true, List.filter_filter, hc', ht', Bool.false_or]
      congr 1
      funext r
      exact Bool.and_comm _ _
  · intro ht hc
    simp [Client.performSearch, hc, ht]

/-- Claim C9 witness: with an empty search box and no category selected,
the full in-memory list is restored. -/
theorem performSearch_filter_spec_witness :
    Client.performSearch [⟨"Pie", "dessert", some "flour", some "mix"⟩] "" "" =
      [⟨"Pie", "dessert", some "flour", some "mix"⟩] :=
  (performSearch_filter_spec [⟨"Pie", "dessert", some "flour", some "mix"⟩] "" "").2
    (by decide) rfl

/-- Claim C10, counterexample: a GET whose stripped path ends in the
segment `recipes` but which carries `recent=1` is routed to the
recent-recipes branch, returning one recipe out of the two stored — not
the full recipe list the claim promises for that path shape. -/
theorem recipes_trailing_recent_cex :
    (RecipesApi.handler 0
      ⟨[("a", ⟨"A", "c", "", "", "i", "s", "", 5⟩),
        ("b", ⟨"B", "c", "", "", "i", "s", "", 3⟩)], 2⟩
      ⟨"GET", "/api/recipes?recent=1", some "1",
        ⟨JSValue.vUndefined, JSValue.vUndefined, JSValue.vUndefined, JSValue.vUndefined,
         JSValue.vUndefined, JSValue.vUndefined, JSValue.vUndefined⟩⟩).1.status = 200 ∧
    (RecipesApi.handler 0
      ⟨[("a", ⟨"A", "c", "", "", "i", "s", "", 5⟩),
        ("b", ⟨"B", "c", "", "", "i", "s", "", 3⟩)], 2⟩
      ⟨"GET", "/api/recipes?recent=1", some "1",
        ⟨JSValue.vUndefined, JSValue.vUndefined, JSValue.vUndefined, JSValue.vUndefined,
         JSValue.vUndefined, JSValue.vUndefined, JSValue.vUndefined⟩⟩).1.body =
      RecipesApi.RBody.recipesList 1 [("a", ⟨"A", "c", "", "", "i", "s", "", 5⟩)] ∧
    RecipesApi.lastSegment "/api/recipes?recent=1" = "recipes" := by
  refine ⟨by decide, by decide, by decide⟩

/-- Claim C10, amended: a GET with no (or an empty) `recent` query
parameter whose stripped path has an empty final segment or the final
segment `recipes` is treated as list-all: 200 with the full recipe list
(a permutation of everything stored, newest first) and never a 404;
under the same conditions only a non-empty final segment different from
`recipes` is interpreted as a recipe-id lookup.  With `recent` present
the same path shape returns the N most recent instead. -/
theorem recipes_list_all_routing (now : Nat) (db : RecipesApi.RecipesDb)
    (req : RecipesApi.RecipesReq) :
    (req.method = "GET" → optTruthy req.queryRecent = false →
      (RecipesApi.lastSegment req.url = "" ∨ RecipesApi.lastSegment req.url = "recipes") →
      (RecipesApi.handler now db req).1.status = 200 ∧
      (RecipesApi.handler now db req).1.body =
        RecipesApi.RBody.recipesList (RecipesApi.byNewest db.docs).length
          (RecipesApi.byNewest db.docs) ∧
      (RecipesApi.byNewest db.docs).Perm db.docs) ∧
    (req.method = "GET" → optTruthy req.queryRecent = false →
      RecipesApi.lastSegment req.url ≠ "" → RecipesApi.lastSegment req.url ≠ "recipes" →
      (RecipesApi.handler now db req).1 =
        RecipesApi.getRecipeById db (RecipesApi.lastSegment req.url)) := by
  constructor
  · intro hm hr hseg
    have hcond : (RecipesApi.lastSegment req.url != "" &&
        RecipesApi.lastSegment req.url != "recipes") = false := by
      rcases hseg with h | h <;> simp [h]
    refine ⟨?_, ?_, List.perm_insertionSort _ db.docs⟩ <;>
      simp [RecipesApi.handler, hm, hr, hcond, RecipesApi.getAllRecipes]
  · intro hm hr h1 h2
    have hcond : (RecipesApi.lastSegment req.url != "" &&
        RecipesApi.lastSegment req.url != "recipes") = true := by
      simp [h1, h2]
    simp [RecipesApi.handler, hm, hr, hcond]

/-- Claim C10 witness: a GET on a path with a trailing slash (empty
final segment) and no `recent` parameter returns 200 with the full
one-recipe list. -/
theorem recipes_list_all_routing_witness :
    (RecipesApi.handler 0 ⟨[("a", ⟨"A", "c", "", "", "i", "s", "", 5⟩)], 1⟩
      ⟨"GET", "/api/recipes/", none,
        ⟨JSValue.vUndefined, JSValue.vUndefined, JSValue.vUndefined, JSValue.vUndefined,
         JSValue.vUndefined, JSValue.vUndefined, JSValue.vUndefined⟩⟩).1.status = 200 ∧
    (RecipesApi.handler 0 ⟨[("a", ⟨"A", "c", "", "", "i", "s", "", 5⟩)], 1⟩
      ⟨"GET", "/api/recipes/", none,
        ⟨JSValue.vUndefined, JSValue.vUndefined, JSValue.vUndefined, JSValue.vUndefined,
         JSValue.vUndefined, JSValue.vUndefined, JSValue.vUndefined⟩⟩).1.body =
      RecipesApi.RBody.recipesList 1 [("a", ⟨"A", "c", "", "", "i", "s", "", 5⟩)] := by
  have h := (recipes_list_all_routing 0 ⟨[("a", ⟨"A", "c", "", "", "i", "s", "", 5⟩)], 1⟩
    ⟨"GET", "/api/recipes/", none,
      ⟨JSValue.vUndefined, JSValue.vUndefined, JSValue.vUndefined, JSValue.vUndefined,
       JSValue.vUndefined, JSValue.vUndefined, JSValue.vUndefined⟩⟩).1
    rfl rfl (Or.inl (by decide))
  refine ⟨h.1, ?_⟩
  rw [h.2.1]
  decide

end Fhcb
